import Mathlib

/-!
Verification development for the Parsel document-to-CSV extraction
application.  The repository ships a React frontend (context reducer,
upload driver, processing-status view, results view) together with a
README documenting the backend HTTP interface; the Python backend itself
(OCR engines, validator, CSV generator, orchestrator) is not part of the
sources, so those parts are modelled from the specification where a
claim needs them, and each such definition is marked in its doc comment.

JavaScript values held in React state are dynamically typed; we embed
them as the inductive `JSValue`.  JavaScript strings manipulated at
character granularity (the CSV text) are embedded as `List Char`, with
`splitOnChar`, `joinSep` and `removeQuotes` mirroring the semantics of
`String.prototype.split`, `Array.prototype.join` and a global-quote
`replace`.
-/

/-- A dynamically typed JavaScript value, as stored in React state and
dispatched in action payloads. -/
inductive JSValue where
  | null
  | bool (b : Bool)
  | num (q : ℚ)
  | str (s : String)
  | obj (fields : List (String × JSValue))

/-- The application state shape from `frontend/src/context/AppContext.js`.
Every field is a `JSValue` because JavaScript imposes no field types. -/
structure AppState where
  uploadedFile : JSValue
  processingStatus : JSValue
  extractionResults : JSValue
  accuracyMetrics : JSValue
  currentStep : JSValue
  totalSteps : JSValue
  error : JSValue
  processingProgress : JSValue

/-- A dispatched Redux-style action: a type tag and a payload. -/
structure ReducerAction where
  typ : String
  payload : JSValue

/-- `initialState` from `AppContext.js`. -/
def initialState : AppState :=
  { uploadedFile := JSValue.null
    processingStatus := JSValue.str "idle"
    extractionResults := JSValue.null
    accuracyMetrics := JSValue.null
    currentStep := JSValue.num 0
    totalSteps := JSValue.num 4
    error := JSValue.null
    processingProgress := JSValue.obj
      [("ocr", JSValue.num 0), ("tableDetection", JSValue.num 0),
       ("validation", JSValue.num 0), ("csvGeneration", JSValue.num 0)] }

/-- JavaScript object spread `\x7b...a, ...b\x7d` on string-keyed records:
keys of `a` keep their positions with values overridden by `b` where
present; keys of `b` absent from `a` are appended in order. -/
def objMerge (a b : List (String × JSValue)) : List (String × JSValue) :=
  (a.map fun kv =>
    match b.find? (fun kv2 => kv2.1 = kv.1) with
    | some kv2 => (kv.1, kv2.2)
    | none => kv)
  ++ b.filter (fun kv2 => !(a.any (fun kv => kv.1 = kv2.1)))

/-- Object spread lifted to `JSValue`; spreading a non-object contributes
no string-keyed properties (the reducer only ever spreads the
`processingProgress` object). -/
def jsSpread (a b : JSValue) : JSValue :=
  match a, b with
  | JSValue.obj fa, JSValue.obj fb => JSValue.obj (objMerge fa fb)
  | JSValue.obj fa, _ => JSValue.obj fa
  | _, JSValue.obj fb => JSValue.obj fb
  | _, _ => JSValue.obj []

/-- The eight action types handled by `appReducer` in `AppContext.js`. -/
def handledActionTypes : List String :=
  ["SET_UPLOADED_FILE", "SET_PROCESSING_STATUS", "SET_EXTRACTION_RESULTS",
   "SET_ACCURACY_METRICS", "SET_CURRENT_STEP", "SET_ERROR",
   "SET_PROCESSING_PROGRESS", "RESET_STATE"]

/-- `appReducer` from `AppContext.js`, case for case. -/
def appReducer (state : AppState) (action : ReducerAction) : AppState :=
  match action.typ with
  | "SET_UPLOADED_FILE" =>
      { state with uploadedFile := action.payload,
                   processingStatus := JSValue.str "uploading" }
  | "SET_PROCESSING_STATUS" =>
      { state with processingStatus := action.payload }
  | "SET_EXTRACTION_RESULTS" =>
      { state with extractionResults := action.payload,
                   processingStatus := JSValue.str "completed" }
  | "SET_ACCURACY_METRICS" =>
      { state with accuracyMetrics := action.payload }
  | "SET_CURRENT_STEP" =>
      { state with currentStep := action.payload }
  | "SET_ERROR" =>
      { state with error := action.payload,
                   processingStatus := JSValue.str "error" }
  | "SET_PROCESSING_PROGRESS" =>
      { state with
          processingProgress := jsSpread state.processingProgress action.payload }
  | "RESET_STATE" => initialState
  | _ => state

/-- A browser `File` object as far as the frontend inspects it. -/
structure JSFile where
  name : String
  size : ℕ
deriving DecidableEq

/-- `useDropzone` option `multiple` in `DocumentUpload.js`. -/
def dropzoneMultiple : Bool := false

/-- `useDropzone` option `maxSize` in `DocumentUpload.js` (50MB). -/
def dropzoneMaxSize : ℕ := 50 * 1024 * 1024

/-- The file extensions accepted by the `useDropzone` `accept` map in
`DocumentUpload.js` (`application/pdf` and `image/*`). -/
def dropzoneAcceptExts : List String :=
  [".pdf", ".png", ".jpg", ".jpeg", ".tiff", ".bmp"]

/-- Whether the dropzone configuration accepts a file with the given
extension and byte size. -/
def dropzoneAccepts (ext : String) (size : ℕ) : Bool :=
  dropzoneAcceptExts.contains ext && size ≤ dropzoneMaxSize

/-- `onDrop` from `DocumentUpload.js`: takes `acceptedFiles[0]` and, when
present, stores it; with no accepted file the stored file is unchanged.
Returns the new `uploadedFile` state. -/
def onDrop (acceptedFiles : List JSFile) (uploadedFile : Option JSFile) :
    Option JSFile :=
  match acceptedFiles with
  | [] => uploadedFile
  | f :: _ => some f

/-- The `/upload` response body as `handleProcess` inspects it:
`data.filepath`, possibly absent. -/
structure UploadResponseData where
  filepath : Option String

/-- The `/extract` response body as `handleProcess` inspects it. -/
structure ExtractResponseData where
  success : Bool
  err : Option String
  accuracy_rate : ℚ
  total_cells : ℕ
  validation_errors : ℕ

/-- The actions `handleProcess` can dispatch. -/
inductive DispAction where
  | setProcessingStatus (s : String)
  | setExtractionResults (r : ExtractResponseData)
  | setAccuracyMetrics (accuracy_rate : ℚ) (total_cells : ℕ)
      (validation_errors : ℕ)
  | setError (msg : String)

/-- Whether a dispatched action is `SET_EXTRACTION_RESULTS`. -/
def DispAction.isSetExtractionResults : DispAction → Bool
  | DispAction.setExtractionResults _ => true
  | _ => false

/-- Whether a dispatched action is `SET_ERROR`. -/
def DispAction.isSetError : DispAction → Bool
  | DispAction.setError _ => true
  | _ => false

/-- The options object of the `/extract` request issued by
`handleProcess` in `DocumentUpload.js`. -/
def extractRequestOptions : List (String × JSValue) :=
  [("enable_preview", JSValue.bool true),
   ("confidence_threshold", JSValue.num (7 / 10))]

/-- `handleProcess` from `DocumentUpload.js`.  The two awaited HTTP calls
are inputs (`Except` models an axios rejection); the result is the list
of dispatched actions in order, paired with the options of every
`/extract` call issued.  Without an uploaded file the handler returns at
once; an upload response without a `filepath` ends the `try` block with
no further dispatch; a rejected call or `success: false` reaches the
`catch` block, which dispatches `SET_ERROR`. -/
def handleProcess (uploadedFile : Option JSFile)
    (uploadResp : Except String UploadResponseData)
    (extractResp : Except String ExtractResponseData) :
    List DispAction × List (List (String × JSValue)) :=
  match uploadedFile with
  | none => ([], [])
  | some _ =>
    match uploadResp with
    | Except.error e =>
        ([DispAction.setProcessingStatus "uploading", DispAction.setError e], [])
    | Except.ok u =>
      match u.filepath with
      | none => ([DispAction.setProcessingStatus "uploading"], [])
      | some _ =>
        match extractResp with
        | Except.error e =>
            ([DispAction.setProcessingStatus "uploading",
              DispAction.setProcessingStatus "processing",
              DispAction.setError e], [extractRequestOptions])
        | Except.ok r =>
          if r.success then
            ([DispAction.setProcessingStatus "uploading",
              DispAction.setProcessingStatus "processing",
              DispAction.setExtractionResults r,
              DispAction.setAccuracyMetrics r.accuracy_rate r.total_cells
                r.validation_errors], [extractRequestOptions])
          else
            ([DispAction.setProcessingStatus "uploading",
              DispAction.setProcessingStatus "processing",
              DispAction.setError (r.err.getD "Extraction failed")],
             [extractRequestOptions])

/-- The fields `ResultsView` destructures from `extractionResults`
(`ResultsView.js` line 202) — the frontend's consumption of the result
object at the external boundary. -/
def resultsViewConsumedFields : List String :=
  ["accuracy_rate", "total_tables", "total_cells", "validation_errors",
   "csv_data", "validation_results"]

/-- The fields of the documented `/extract` response body (README,
API Endpoints section). -/
def extractResponseFields : List String :=
  ["success", "accuracy_rate", "total_tables", "total_cells",
   "validation_errors", "csv_data", "validation_results"]

/-- The result-object fields as the specification lists them. -/
def specExtractionResultFields : List String :=
  ["accuracy_rate", "total_tables", "total_cells", "validation_errors",
   "csv_text", "validation_results"]

/-- The `processingProgress` record with its four stage fields, as
initialized in `AppContext.js` and read by `ProcessingStatus.js`. -/
structure ProcessingProgress where
  ocr : ℚ
  tableDetection : ℚ
  validation : ℚ
  csvGeneration : ℚ

/-- `Object.values(processingProgress)` in insertion order. -/
def ProcessingProgress.values (p : ProcessingProgress) : List ℚ :=
  [p.ocr, p.tableDetection, p.validation, p.csvGeneration]

/-- `totalProgress` from `ProcessingStatus.js` line 178:
`Object.values(processingProgress).reduce((sum, val) => sum + val, 0) / 4`. -/
def totalProgress (p : ProcessingProgress) : ℚ :=
  (p.values.foldl (fun sum val => sum + val) 0) / 4

/-- JavaScript `String.prototype.split` with a one-character separator,
at character level.  `"".split(sep)` is `[""]`; separators at the ends
produce empty chunks. -/
def splitOnChar (sep : Char) : List Char → List (List Char)
  | [] => [[]]
  | c :: cs =>
    if c = sep then [] :: splitOnChar sep cs
    else
      match splitOnChar sep cs with
      | [] => [[c]]
      | h :: t => (c :: h) :: t

/-- JavaScript `Array.prototype.join` with a one-character separator. -/
def joinSep (sep : Char) : List (List Char) → List Char
  | [] => []
  | [x] => x
  | x :: xs => x ++ sep :: joinSep sep xs

/-- `cell.replace(/"/g, "")` — remove every double quote. -/
def removeQuotes (s : List Char) : List Char :=
  s.filter (fun c => c ≠ '"')

/-- `formatCSVData` from `ResultsView.js` lines 204–210 applied to a
non-null `csv_data` string: split into lines on newline, split each line
on commas, and strip all double quotes from each resulting cell. -/
def formatCSVData (csv_data : List Char) : List (List (List Char)) :=
  (splitOnChar '\n' csv_data).map
    (fun line => (splitOnChar ',' line).map removeQuotes)

/-- A character the CSV quoting rules treat as special. -/
def isCSVSpecial (c : Char) : Bool :=
  c = ',' || c = '"' || c = '\n'

/-- Double every double quote in a cell. -/
def doubleQuotes : List Char → List Char
  | [] => []
  | c :: cs =>
      if c = '"' then '"' :: '"' :: doubleQuotes cs else c :: doubleQuotes cs

/-- Modelled from the spec: the backend `csv_generator.py` is not among
the sources.  §4.6: a cell containing a comma, quote, or newline is
wrapped in double quotes with internal quotes doubled; other cells are
emitted verbatim. -/
def escapeCSVCell (cell : List Char) : List Char :=
  if cell.any isCSVSpecial then '"' :: (doubleQuotes cell ++ ['"']) else cell

/-- Modelled from the spec: the backend `csv_generator.py` is not among
the sources.  Serialize a cell matrix to CSV text: escaped cells joined
by commas, rows joined by newlines. -/
def serializeCSV (m : List (List (List Char))) : List Char :=
  joinSep '\n' (m.map (fun row => joinSep ',' (row.map escapeCSVCell)))

/-- Modelled from the spec: the orchestrator is not among the sources.
Error weight of the accuracy formula (§4.5, "e.g., 1.0 vs 0.2"). -/
def errorWeight : ℚ := 1

/-- Modelled from the spec: warning weight of the accuracy formula. -/
def warningWeight : ℚ := 2 / 10

/-- Clamp a rational to the interval [0, 1]. -/
def clamp01 (x : ℚ) : ℚ := max 0 (min 1 x)

/-- Modelled from the spec: the orchestrator is not among the sources.
§4.5: `accuracy_rate = 1 − (weighted_error_and_warning_count /
total_cells)`, errors weighted above warnings, clamped to [0, 1]. -/
def accuracyRate (errors warnings totalCellCount : ℕ) : ℚ :=
  clamp01 (1 - (errorWeight * errors + warningWeight * warnings) / totalCellCount)

/-- A table's cell matrix: rows of cells, a cell being its text. -/
abbrev TableMatrix := List (List String)

/-- Row count of a table matrix. -/
def matrixRows (t : TableMatrix) : ℕ := t.length

/-- Column count of a table matrix (length of its first row, the grid
width for a dense matrix). -/
def matrixCols (t : TableMatrix) : ℕ := (t.headD []).length

/-- Number of cells actually present in a table matrix. -/
def matrixCellCount (t : TableMatrix) : ℕ := (t.map List.length).sum

/-- §3: cells form a dense row×col matrix — every row has the grid
width. -/
abbrev IsDense (t : TableMatrix) : Prop :=
  ∀ row ∈ t, row.length = matrixCols t

/-- Modelled from the spec: the validator `data_validator.py` is not
among the sources.  §4.5/§7: errors are reserved for violations that
make a table unusable — zero detected columns, or a zero row count —
and always increment `validation_errors`. -/
def structuralErrors (t : TableMatrix) : List String :=
  (if matrixRows t = 0 then ["StructuralError: table has zero rows"] else [])
    ++ (if matrixCols t = 0 then ["StructuralError: table has zero columns"] else [])

/-- Modelled from the spec: the orchestrator is not among the sources.
§8: `total_cells = Σ over tables of rows×cols` is aggregated from the
per-table matrices. -/
def totalCellsOfPage (ts : List TableMatrix) : ℕ :=
  (ts.map matrixCellCount).sum

/-- Modelled from the spec: the orchestrator is not among the sources.
The aggregated count of validation errors over a page's tables. -/
def validationErrorsOfPage (ts : List TableMatrix) : ℕ :=
  (ts.map (fun t => (structuralErrors t).length)).sum

/-- An OCR token as produced by one engine (§3). -/
structure OcrToken where
  text : String
  bbox : ℚ × ℚ × ℚ × ℚ
  confidence : ℚ
  engine_id : ℕ

/-- A consensus token (§3), as far as the consensus claims inspect it. -/
structure ConsensusToken where
  text : String
  confidence : ℚ
  agreement_count : ℕ

/-- Modelled from the spec: the consensus engine is not among the
sources.  The agreement-bonus proportionality constant of §4.2. -/
def agreementBonus : ℚ := 1 / 10

/-- Maximum single-engine confidence in a cluster. -/
def maxConfidence (cluster : List OcrToken) : ℚ :=
  (cluster.map OcrToken.confidence).foldr max 0

/-- Number of distinct engines contributing to a cluster. -/
def agreementCount (cluster : List OcrToken) : ℕ :=
  ((cluster.map OcrToken.engine_id).dedup).length

/-- Modelled from the spec: weighted vote score of a candidate text in a
cluster — the sum of the confidences of the tokens carrying that text
(per-engine reliability priors are equal by default). -/
def voteScore (cluster : List OcrToken) (t : String) : ℚ :=
  ((cluster.filter (fun tok => tok.text = t)).map OcrToken.confidence).sum

/-- Modelled from the spec: the consensus engine is not among the
sources.  Resolve a cluster's text by weighted vote, keeping the earlier
candidate on a tie. -/
def voteText (cluster : List OcrToken) : String :=
  match cluster with
  | [] => ""
  | t0 :: _ =>
      cluster.foldl
        (fun best tok =>
          if voteScore cluster best < voteScore cluster tok.text then tok.text
          else best)
        t0.text

/-- Modelled from the spec: the consensus engine is not among the
sources.  §4.2: consensus confidence = max single-engine confidence
boosted by an agreement bonus proportional to
`agreement_count / total_engines_run`, capped at 1.0. -/
def resolveCluster (cluster : List OcrToken) (totalEnginesRun : ℕ) :
    ConsensusToken :=
  { text := voteText cluster
    confidence :=
      min 1 (maxConfidence cluster
        + agreementBonus * ((agreementCount cluster : ℚ) / totalEnginesRun))
    agreement_count := agreementCount cluster }

/-- The concrete cluster of the spec's consensus scenario (§8): three
engines each output "Total" at near-identical boxes with confidences
0.9, 0.85 and 0.4. -/
def scenarioCluster : List OcrToken :=
  [{ text := "Total", bbox := (10, 20, 40, 12), confidence := 9 / 10, engine_id := 0 },
   { text := "Total", bbox := (11, 20, 40, 12), confidence := 85 / 100, engine_id := 1 },
   { text := "Total", bbox := (10, 21, 40, 12), confidence := 4 / 10, engine_id := 2 }]

/-! ## Helper lemmas -/

/-- Mapping a function that fixes every member of a list is the
identity. -/
theorem map_id_of_eq {α : Type} (l : List α) (f : α → α)
    (h : ∀ a ∈ l, f a = a) : l.map f = l := by
  induction l with
  | nil => rfl
  | cons a t ih =>
      simp [h a (List.mem_cons_self _ _),
        ih (fun b hb => h b (List.mem_cons_of_mem _ hb))]

/-- Two maps agreeing on every member of a list are equal on it. -/
theorem map_congr_mem {α β : Type} (l : List α) (f g : α → β)
    (h : ∀ a ∈ l, f a = g a) : l.map f = l.map g := by
  induction l with
  | nil => rfl
  | cons a t ih =>
      simp [h a (List.mem_cons_self _ _),
        ih (fun b hb => h b (List.mem_cons_of_mem _ hb))]

/-! ## Claim theorems -/

/-- C8: for every application state `s` and payload `p`,
`appReducer s (SET_ERROR, p)` sets `error := p` and
`processingStatus := "error"` and leaves every other field of `s`
unchanged; and any action whose type is not one of the eight handled
types returns `s` unchanged. -/
theorem appReducer_set_error_frame :
    (∀ (s : AppState) (p : JSValue),
        appReducer s { typ := "SET_ERROR", payload := p }
          = { s with error := p, processingStatus := JSValue.str "error" })
    ∧ (∀ (s : AppState) (a : ReducerAction),
        a.typ ∉ handledActionTypes → appReducer s a = s) := by
  constructor
  · intro s p
    rfl
  · intro s a h
    simp only [handledActionTypes, List.mem_cons, List.not_mem_nil, or_false,
      not_or] at h
    obtain ⟨h1, h2, h3, h4, h5, h6, h7, h8⟩ := h
    unfold appReducer
    split <;> simp_all

/-- Witness for `appReducer_set_error_frame`: an unhandled action type
leaves the initial state unchanged. -/
theorem appReducer_set_error_frame_witness :
    appReducer initialState
      { typ := "SET_UNKNOWN", payload := JSValue.null } = initialState :=
  appReducer_set_error_frame.2 initialState _ (by decide)

/-- C9: when the four stage values each lie in [0, 100], the overall
progress computed by `ProcessingStatus` equals the arithmetic mean of
the four stage values, lies in [0, 100], and equals 100 exactly when all
four stage values equal 100. -/
theorem totalProgress_mean (p : ProcessingProgress)
    (h1 : 0 ≤ p.ocr ∧ p.ocr ≤ 100)
    (h2 : 0 ≤ p.tableDetection ∧ p.tableDetection ≤ 100)
    (h3 : 0 ≤ p.validation ∧ p.validation ≤ 100)
    (h4 : 0 ≤ p.csvGeneration ∧ p.csvGeneration ≤ 100) :
    totalProgress p
      = (p.ocr + p.tableDetection + p.validation + p.csvGeneration) / 4
    ∧ 0 ≤ totalProgress p ∧ totalProgress p ≤ 100
    ∧ (totalProgress p = 100 ↔
        p.ocr = 100 ∧ p.tableDetection = 100 ∧ p.validation = 100
          ∧ p.csvGeneration = 100) := by
  obtain ⟨h1a, h1b⟩ := h1
  obtain ⟨h2a, h2b⟩ := h2
  obtain ⟨h3a, h3b⟩ := h3
  obtain ⟨h4a, h4b⟩ := h4
  have hval : totalProgress p
      = (p.ocr + p.tableDetection + p.validation + p.csvGeneration) / 4 := by
    unfold totalProgress ProcessingProgress.values
    simp [List.foldl]
  refine ⟨hval, ?_, ?_, ?_⟩
  · rw [hval]
    positivity
  · rw [hval, div_le_iff₀ (by norm_num : (0 : ℚ) < 4)]
    linarith
  · rw [hval]
    constructor
    · intro h
      rw [div_eq_iff (by norm_num : (4 : ℚ) ≠ 0)] at h
      refine ⟨by linarith, by linarith, by linarith, by linarith⟩
    · rintro ⟨e1, e2, e3, e4⟩
      rw [e1, e2, e3, e4]
      norm_num

/-- Witness for `totalProgress_mean` at all four stages complete. -/
theorem totalProgress_mean_witness :
    totalProgress ⟨100, 100, 100, 100⟩ = (100 + 100 + 100 + 100) / 4
    ∧ 0 ≤ totalProgress ⟨100, 100, 100, 100⟩
    ∧ totalProgress ⟨100, 100, 100, 100⟩ ≤ 100
    ∧ (totalProgress ⟨100, 100, 100, 100⟩ = 100 ↔
        (100 : ℚ) = 100 ∧ (100 : ℚ) = 100 ∧ (100 : ℚ) = 100
          ∧ (100 : ℚ) = 100) :=
  totalProgress_mean ⟨100, 100, 100, 100⟩ (by norm_num) (by norm_num)
    (by norm_num) (by norm_num)

/-- C10: the dropzone disables multiple selection, accepts exactly the
PDF/image extensions up to 50×1024×1024 bytes, and `onDrop` stores
exactly the first accepted file while a drop with zero accepted files
leaves the stored file unchanged. -/
theorem dropzone_onDrop_spec :
    dropzoneMultiple = false
    ∧ dropzoneMaxSize = 50 * 1024 * 1024
    ∧ dropzoneAcceptExts = [".pdf", ".png", ".jpg", ".jpeg", ".tiff", ".bmp"]
    ∧ (∀ (ext : String) (size : ℕ),
        dropzoneAccepts ext size = true ↔
          (ext ∈ dropzoneAcceptExts ∧ size ≤ 50 * 1024 * 1024))
    ∧ (∀ (f : JSFile) (fs : List JSFile) (st : Option JSFile),
        onDrop (f :: fs) st = some f)
    ∧ (∀ st : Option JSFile, onDrop [] st = st) := by
  refine ⟨rfl, rfl, rfl, ?_, fun f fs st => rfl, fun st => rfl⟩
  intro ext size
  simp [dropzoneAccepts, dropzoneMaxSize, List.elem_iff]

/-- C2: evaluating `handleProcess` at the failing input — an uploaded
file whose upload request resolves without a `filepath` field — shows it
dispatches neither `SET_EXTRACTION_RESULTS` nor `SET_ERROR`: the caller
receives neither an extraction result nor a failure, against the
guarantee that every call yields one of the two outcomes. -/
theorem handleProcess_silent_run :
    ((handleProcess (some { name := "doc.pdf", size := 1000 })
        (Except.ok { filepath := none })
        (Except.ok { success := true, err := none, accuracy_rate := 1,
                     total_cells := 9, validation_errors := 0 })).1.any
      (fun a => a.isSetExtractionResults || a.isSetError)) = false := by
  rfl

/-- Path analysis of `handleProcess` around the silent run: a run whose
upload call resolves with a `filepath` always dispatches
`SET_EXTRACTION_RESULTS` or `SET_ERROR` and never both, a rejected
upload always dispatches `SET_ERROR`, while a run whose upload response
lacks a `filepath` (or with no uploaded file) dispatches neither — the
missing outcome dispatch is confined to that one path. -/
theorem handleProcess_outcome_paths :
    (∀ (f : JSFile) (fp : String) (ext : Except String ExtractResponseData),
      ((handleProcess (some f) (Except.ok { filepath := some fp }) ext).1.any
        (fun a => a.isSetExtractionResults || a.isSetError)) = true)
    ∧ (∀ (f : JSFile) (e : String) (ext : Except String ExtractResponseData),
      ((handleProcess (some f) (Except.error e) ext).1.any
        DispAction.isSetError) = true)
    ∧ (∀ (f : JSFile) (ext : Except String ExtractResponseData),
      ((handleProcess (some f) (Except.ok { filepath := none }) ext).1.any
        (fun a => a.isSetExtractionResults || a.isSetError)) = false)
    ∧ (∀ (u : Except String UploadResponseData)
        (ext : Except String ExtractResponseData),
      (handleProcess none u ext).1 = [])
    ∧ (∀ (file : Option JSFile) (u : Except String UploadResponseData)
        (ext : Except String ExtractResponseData),
      ((handleProcess file u ext).1.any DispAction.isSetExtractionResults
        && (handleProcess file u ext).1.any DispAction.isSetError) = false) := by
  refine ⟨?_, fun f e ext => rfl, fun f ext => rfl, fun u ext => rfl, ?_⟩
  · intro f fp ext
    match ext with
    | Except.error e => rfl
    | Except.ok r =>
        obtain ⟨s, er, ar, tc, ve⟩ := r
        cases s <;> rfl
  · intro file u ext
    match file, u, ext with
    | none, _, _ => rfl
    | some f, Except.error e, _ => rfl
    | some f, Except.ok ⟨none⟩, _ => rfl
    | some f, Except.ok ⟨some fp⟩, Except.error e => rfl
    | some f, Except.ok ⟨some fp⟩, Except.ok r =>
        obtain ⟨s, er, ar, tc, ve⟩ := r
        cases s <;> rfl

/-- C3 counterexample: the result object consumed at the external
boundary carries its CSV output in a field named `csv_data`; no field
named `csv_text` appears either in the fields `ResultsView` destructures
or in the documented `/extract` response, so the claimed field list does
not match the consumed one. -/
theorem csv_field_name_counterexample :
    resultsViewConsumedFields.contains "csv_text" = false
    ∧ extractResponseFields.contains "csv_text" = false
    ∧ specExtractionResultFields ≠ resultsViewConsumedFields := by
  refine ⟨rfl, rfl, by decide⟩

/-- C3 amended: the result object consumed at the external boundary
carries exactly the documented fields `success, accuracy_rate,
total_tables, total_cells, validation_errors, csv_data,
validation_results`; the field carrying the CSV output is named
`csv_data`; every field `ResultsView` destructures is among the
documented ones, and the reducer stores the returned object unmodified. -/
theorem extraction_result_fields_amended :
    (resultsViewConsumedFields.all
        (fun f => extractResponseFields.contains f)) = true
    ∧ resultsViewConsumedFields.contains "csv_data" = true
    ∧ extractResponseFields.contains "csv_data" = true
    ∧ resultsViewConsumedFields
        = ["accuracy_rate", "total_tables", "total_cells",
           "validation_errors", "csv_data", "validation_results"]
    ∧ (∀ (s : AppState) (p : JSValue),
        (appReducer s
          { typ := "SET_EXTRACTION_RESULTS", payload := p }).extractionResults
          = p) :=
  ⟨rfl, rfl, rfl, rfl, fun _ _ => rfl⟩

/-- C4 counterexample: the options record of the `/extract` call issued
by `handleProcess` has fields `enable_preview` and
`confidence_threshold` — it supplies neither `min_table_area` nor
`enabled_engines`, so no call supplies the claimed shape. -/
theorem extract_options_counterexample :
    extractRequestOptions.map Prod.fst
        ≠ ["confidence_threshold", "min_table_area", "enabled_engines"]
    ∧ "min_table_area" ∉ extractRequestOptions.map Prod.fst
    ∧ "enabled_engines" ∉ extractRequestOptions.map Prod.fst
    ∧ "enable_preview" ∈ extractRequestOptions.map Prod.fst := by
  refine ⟨by decide, by decide, by decide, by decide⟩

/-- C4 amended: every `/extract` call the frontend issues supplies an
options record with exactly the fields `enable_preview` (boolean) and
`confidence_threshold` (float 0.7). -/
theorem extract_options_amended :
    extractRequestOptions.map Prod.fst
        = ["enable_preview", "confidence_threshold"]
    ∧ (∀ (file : Option JSFile) (u : Except String UploadResponseData)
        (ext : Except String ExtractResponseData)
        (opts : List (String × JSValue)),
        opts ∈ (handleProcess file u ext).2 → opts = extractRequestOptions) := by
  refine ⟨rfl, ?_⟩
  intro file u ext opts h
  match file, u, ext with
  | none, _, _ => simp [handleProcess] at h
  | some f, Except.error e, _ => simp [handleProcess] at h
  | some f, Except.ok ⟨none⟩, _ => simp [handleProcess] at h
  | some f, Except.ok ⟨some fp⟩, Except.error e =>
      simp [handleProcess] at h
      exact h
  | some f, Except.ok ⟨some fp⟩, Except.ok r =>
      by_cases hs : r.success <;> simp [handleProcess, hs] at h <;> exact h

/-- Witness for `extract_options_amended`: the options of the one
`/extract` call of a concrete run are the literal record. -/
theorem extract_options_amended_witness :
    [("enable_preview", JSValue.bool true),
     ("confidence_threshold", JSValue.num (7 / 10))] = extractRequestOptions :=
  extract_options_amended.2 (some { name := "doc.pdf", size := 4 })
    (Except.ok { filepath := some "uploads/doc.pdf" })
    (Except.error "network down") _ (List.Mem.head _)

/-- C5: the accuracy rate lies in [0, 1] and, for a fixed warning and
total-cell count, is monotonic non-increasing as the error count
increases; errors carry a strictly higher weight than warnings. -/
theorem accuracyRate_bounds_monotone :
    (∀ e w c : ℕ, 0 ≤ accuracyRate e w c ∧ accuracyRate e w c ≤ 1)
    ∧ (∀ e e' w c : ℕ, e ≤ e' → accuracyRate e' w c ≤ accuracyRate e w c)
    ∧ warningWeight < errorWeight := by
  refine ⟨?_, ?_, by norm_num [errorWeight, warningWeight]⟩
  · intro e w c
    unfold accuracyRate clamp01
    exact ⟨le_max_left 0 _, max_le (by norm_num) (min_le_left _ _)⟩
  · intro e e' w c h
    unfold accuracyRate clamp01
    apply max_le_max le_rfl
    apply min_le_min le_rfl
    have hcast : (e : ℚ) ≤ (e' : ℚ) := Nat.cast_le.mpr h
    have hnum : errorWeight * e + warningWeight * w
        ≤ errorWeight * e' + warningWeight * w := by
      unfold errorWeight
      nlinarith
    rcases Nat.eq_zero_or_pos c with hc | hc
    · subst hc
      simp
    · have hcq : (0 : ℚ) < (c : ℚ) := by exact_mod_cast hc
      have := (div_le_div_iff_of_pos_right hcq).mpr hnum
      linarith

/-- Witness for `accuracyRate_bounds_monotone`: three errors give no
better a rate than two, at one warning and ten cells. -/
theorem accuracyRate_bounds_monotone_witness :
    accuracyRate 3 1 10 ≤ accuracyRate 2 1 10 :=
  accuracyRate_bounds_monotone.2.1 2 3 1 10 (by norm_num)

/-- Summing the lengths of rows that all have length `c` gives
`count × c`. -/
theorem sum_map_length_const (c : ℕ) :
    ∀ (t : TableMatrix), (∀ row ∈ t, row.length = c) →
      (t.map List.length).sum = t.length * c := by
  intro t
  induction t with
  | nil => simp
  | cons r rs ih =>
      intro h
      simp only [List.map_cons, List.sum_cons, List.length_cons,
        h r (List.mem_cons_self _ _),
        ih (fun row hrow => h row (List.mem_cons_of_mem _ hrow))]
      ring

/-- The cell count of a dense table matrix is rows × cols. -/
theorem matrixCellCount_of_dense (t : TableMatrix) (h : IsDense t) :
    matrixCellCount t = matrixRows t * matrixCols t :=
  sum_map_length_const (matrixCols t) t h

/-- C6 counterexample: a page holding one structurally degenerate table
(zero rows) has `total_cells = 0` yet a positive validation-error count,
so `validation_errors ≤ total_cells` fails. -/
theorem validation_errors_counterexample :
    ¬ (validationErrorsOfPage [([] : TableMatrix)]
        ≤ totalCellsOfPage [([] : TableMatrix)]) := by
  decide

/-- C6 amended: for every page of dense tables, `total_cells` equals the
sum over tables of rows×cols; and `validation_errors ≤ total_cells`
holds provided every table has at least one row and one column — a
zero-row or zero-column table contributes a structural error but no
cells, which breaks the bound. -/
theorem totalCells_sum_amended (ts : List TableMatrix)
    (hdense : ∀ t ∈ ts, IsDense t)
    (hpos : ∀ t ∈ ts, 0 < matrixRows t ∧ 0 < matrixCols t) :
    totalCellsOfPage ts = (ts.map (fun t => matrixRows t * matrixCols t)).sum
    ∧ validationErrorsOfPage ts ≤ totalCellsOfPage ts := by
  constructor
  · unfold totalCellsOfPage
    exact congrArg List.sum
      (map_congr_mem ts _ _ (fun t ht => matrixCellCount_of_dense t (hdense t ht)))
  · have hzero : validationErrorsOfPage ts = 0 := by
      unfold validationErrorsOfPage
      apply List.sum_eq_zero
      intro n hn
      obtain ⟨t, ht, rfl⟩ := List.mem_map.mp hn
      obtain ⟨hr, hc⟩ := hpos t ht
      unfold structuralErrors
      rw [if_neg (by omega), if_neg (by omega)]
      rfl
    omega

/-- Witness for `totalCells_sum_amended` on a concrete 2×2 table. -/
theorem totalCells_sum_amended_witness :
    totalCellsOfPage [[["a", "b"], ["c", "d"]]]
        = ([[["a", "b"], ["c", "d"]]].map
            (fun t => matrixRows t * matrixCols t)).sum
    ∧ validationErrorsOfPage [[["a", "b"], ["c", "d"]]]
        ≤ totalCellsOfPage [[["a", "b"], ["c", "d"]]] :=
  totalCells_sum_amended _ (by decide) (by decide)

/-- C7: for every consensus cluster, the consensus confidence is the
maximum single-engine confidence boosted by an agreement bonus
proportional to `agreement_count / total_engines_run` and never exceeds
1; in the spec's scenario — three engines outputting "Total" with
confidences 0.9, 0.85, 0.4 — the consensus token has text "Total",
confidence strictly above 0.9, and agreement count 3. -/
theorem consensus_confidence_spec :
    (∀ (cluster : List OcrToken) (n : ℕ),
        (resolveCluster cluster n).confidence
            = min 1 (maxConfidence cluster
                + agreementBonus * ((agreementCount cluster : ℚ) / n))
        ∧ (resolveCluster cluster n).confidence ≤ 1)
    ∧ (resolveCluster scenarioCluster 3).text = "Total"
    ∧ (resolveCluster scenarioCluster 3).confidence > 9 / 10
    ∧ (resolveCluster scenarioCluster 3).agreement_count = 3 := by
  refine ⟨fun cluster n => ⟨rfl, min_le_left _ _⟩, ?_, ?_, ?_⟩
  · show voteText scenarioCluster = "Total"
    simp [voteText, scenarioCluster]
  · norm_num [resolveCluster, scenarioCluster, maxConfidence,
      agreementCount, agreementBonus, List.dedup]
  · decide

/-- `splitOnChar` never returns an empty list of chunks. -/
theorem splitOnChar_ne_nil (sep : Char) (s : List Char) :
    splitOnChar sep s ≠ [] := by
  induction s with
  | nil => simp [splitOnChar]
  | cons c cs ih =>
      unfold splitOnChar
      by_cases h : c = sep
      · simp [h]
      · simp only [if_neg h]
        cases hr : splitOnChar sep cs with
        | nil => simp
        | cons a t => simp

/-- Splitting a chunk free of the separator yields that single chunk. -/
theorem splitOnChar_of_not_mem (sep : Char) (s : List Char) (h : sep ∉ s) :
    splitOnChar sep s = [s] := by
  induction s with
  | nil => rfl
  | cons c cs ih =>
      simp only [List.mem_cons, not_or] at h
      obtain ⟨h1, h2⟩ := h
      unfold splitOnChar
      rw [if_neg (fun he => h1 he.symm), ih h2]

/-- Splitting past a separator-free prefix peels it off as the first
chunk. -/
theorem splitOnChar_append (sep : Char) (x s : List Char) (hx : sep ∉ x) :
    splitOnChar sep (x ++ sep :: s) = x :: splitOnChar sep s := by
  induction x with
  | nil => simp [splitOnChar]
  | cons c cs ih =>
      simp only [List.mem_cons, not_or] at hx
      obtain ⟨h1, h2⟩ := hx
      simp only [List.cons_append]
      rw [show splitOnChar sep (c :: (cs ++ sep :: s))
            = (if c = sep then [] :: splitOnChar sep (cs ++ sep :: s)
               else match splitOnChar sep (cs ++ sep :: s) with
                    | [] => [[c]]
                    | h :: t => (c :: h) :: t) from rfl,
        if_neg (fun he => h1 he.symm), ih h2]

/-- Splitting inverts joining when no chunk contains the separator and
there is at least one chunk. -/
theorem splitOnChar_joinSep (sep : Char) :
    ∀ (rows : List (List Char)), rows ≠ [] → (∀ r ∈ rows, sep ∉ r) →
      splitOnChar sep (joinSep sep rows) = rows := by
  intro rows
  induction rows with
  | nil => intro h _; exact absurd rfl h
  | cons x xs ih =>
      intro _ hmem
      cases xs with
      | nil =>
          simpa [joinSep] using
            splitOnChar_of_not_mem sep x (hmem x (List.mem_cons_self _ _))
      | cons y ys =>
          have hstep : joinSep sep (x :: y :: ys)
              = x ++ sep :: joinSep sep (y :: ys) := rfl
          rw [hstep, splitOnChar_append sep x _ (hmem x (List.mem_cons_self _ _)),
            ih (by simp) (fun r hr => hmem r (List.mem_cons_of_mem _ hr))]

/-- A character distinct from the separator and absent from every chunk
is absent from the join. -/
theorem not_mem_joinSep (sep c : Char) (hne : c ≠ sep) :
    ∀ rows : List (List Char), (∀ r ∈ rows, c ∉ r) → c ∉ joinSep sep rows := by
  intro rows
  induction rows with
  | nil => intro _; simp [joinSep]
  | cons x xs ih =>
      intro h
      cases xs with
      | nil => simpa [joinSep] using h x (List.mem_cons_self _ _)
      | cons y ys =>
          have hstep : joinSep sep (x :: y :: ys)
              = x ++ sep :: joinSep sep (y :: ys) := rfl
          rw [hstep]
          intro hmem
          rcases List.mem_append.mp hmem with h1 | h2
          · exact h x (List.mem_cons_self _ _) h1
          · rcases List.mem_cons.mp h2 with h3 | h4
            · exact hne h3
            · exact ih (fun r hr => h r (List.mem_cons_of_mem _ hr)) h4

/-- A cell with no special character is emitted verbatim. -/
theorem escapeCSVCell_of_no_special (cell : List Char)
    (h : ∀ c ∈ cell, isCSVSpecial c = false) : escapeCSVCell cell = cell := by
  unfold escapeCSVCell
  rw [if_neg]
  simp only [List.any_eq_true, not_exists, not_and]
  intro c hc hs
  rw [h c hc] at hs
  exact Bool.false_ne_true hs

/-- Stripping quotes from a quote-free cell is the identity. -/
theorem removeQuotes_of_no_quote (s : List Char) (h : '"' ∉ s) :
    removeQuotes s = s := by
  unfold removeQuotes
  induction s with
  | nil => rfl
  | cons c cs ih =>
      simp only [List.mem_cons, not_or] at h
      obtain ⟨h1, h2⟩ := h
      rw [List.filter_cons_of_pos (by simpa using fun he => h1 he.symm), ih h2]

/-- C1 counterexample: serializing the one-cell matrix whose cell is
`a,b` and re-parsing it with `formatCSVData` yields a two-cell row — the
frontend parser splits on the comma inside the quoted cell and strips
the quotes, so serialize→parse is not the identity. -/
theorem csv_roundtrip_counterexample :
    formatCSVData (serializeCSV [[['a', ',', 'b']]]) ≠ [[['a', ',', 'b']]] := by
  decide

/-- C1 amended: the round-trip holds exactly on well-behaved input —
for every matrix with at least one row, every row non-empty, and no
cell containing a comma, double quote, or newline, parsing the
serialized CSV text with `formatCSVData` recovers the matrix; a cell
containing one of those characters breaks the round-trip. -/
theorem csv_roundtrip_nonspecial (m : List (List (List Char)))
    (hm : m ≠ [])
    (hrows : ∀ row ∈ m, row ≠ [])
    (hcells : ∀ row ∈ m, ∀ cell ∈ row, ∀ c ∈ cell, isCSVSpecial c = false) :
    formatCSVData (serializeCSV m) = m := by
  have hnocomma : ∀ row ∈ m, ∀ cell ∈ row, ',' ∉ cell := by
    intro row hr cell hc hmem
    have := hcells row hr cell hc ',' hmem
    simp [isCSVSpecial] at this
  have hnoquote : ∀ row ∈ m, ∀ cell ∈ row, '"' ∉ cell := by
    intro row hr cell hc hmem
    have := hcells row hr cell hc '"' hmem
    simp [isCSVSpecial] at this
  have hnonl : ∀ row ∈ m, ∀ cell ∈ row, '\n' ∉ cell := by
    intro row hr cell hc hmem
    have := hcells row hr cell hc '\n' hmem
    simp [isCSVSpecial] at this
  unfold formatCSVData serializeCSV
  rw [map_congr_mem m _ (fun row => joinSep ',' row)
      (fun row hr => congrArg (joinSep ',')
        (map_id_of_eq row escapeCSVCell
          (fun cell hc => escapeCSVCell_of_no_special cell (hcells row hr cell hc))))]
  rw [splitOnChar_joinSep '\n' (m.map (fun row => joinSep ',' row))
      (by simpa using hm)
      (by
        intro r hr
        obtain ⟨row, hrow, rfl⟩ := List.mem_map.mp hr
        exact not_mem_joinSep ',' '\n' (by decide) row
          (fun cell hc => hnonl row hrow cell hc))]
  rw [List.map_map]
  apply map_id_of_eq
  intro row hr
  simp only [Function.comp_apply]
  rw [splitOnChar_joinSep ',' row (hrows row hr)
      (fun cell hc => hnocomma row hr cell hc)]
  exact map_id_of_eq row removeQuotes
    (fun cell hc => removeQuotes_of_no_quote cell (hnoquote row hr cell hc))

/-- Witness for `csv_roundtrip_nonspecial` on a concrete 2×2 matrix of
plain cells. -/
theorem csv_roundtrip_nonspecial_witness :
    formatCSVData (serializeCSV [[['a'], ['b']], [['c', 'd'], ['e']]])
      = [[['a'], ['b']], [['c', 'd'], ['e']]] :=
  csv_roundtrip_nonspecial _ (by decide) (by decide) (by decide)
